import Mathlib

/-!
Verification of the live trading bot core (`src/hftbacktest/src/live/bot.rs`),
a shallow embedding of `LiveBotBuilder` / `LiveBot` and the theorems settling
the specification claims about them.

Modelling choices, applied uniformly:
* Rust `f64` prices/quantities are embedded as `Rat`; `f64::round` becomes
  `rustRound` (round half away from zero, as in Rust).
* `HashMap` / `HashSet` are embedded as association lists with the same
  entry semantics (`omFind` / `omSet` for the order map keyed by `OrderId`,
  `smFind` / `smSet` for the symbol-to-index map; `HashMap::insert` and
  `collect` overwrite an existing key, so a later binding wins).
* `Utc::now()` / `Instant::elapsed()` are side effects of the clock; they
  are threaded in as explicit parameters (`now : Int` per event, and an
  `elapsed` sample per loop iteration in `Step`).
* The shared-memory transport is external (out of scope per the spec), so a
  receive is an oracle value (`RecvOutcome`) drawn from an input trace, and a
  publish outcome is an oracle `Option BotError` (`none` = publish succeeded).
  Published messages are collected into an explicit list.
* The market-depth object is opaque and only driven through
  `update_bid_depth` / `update_ask_depth`; it is embedded as the list of
  update calls made on it.
* `Vec::get(i).unwrap()` panics when `i` is out of range; a panicking
  accessor is embedded as an `Option` result whose `none` case is the panic.
  `get_unchecked` is only reached with an index produced by the builder's
  symbol map; the embedding makes the out-of-range case a no-op.
* The user hooks (`error_handler`, `order_recv_hook`) are function-valued
  fields of the Rust struct; they are threaded as an explicit `Hooks`
  parameter so that the bot state itself stays first-order.
-/

/-- Order status (crate `types`, not under `src/`); the spec lists
New, PartiallyFilled, Filled, Canceled, Expired, Rejected, and an
unset/None value used for `req`. -/
inductive Status where
  | None
  | New
  | PartiallyFilled
  | Filled
  | Canceled
  | Expired
  | Rejected
  deriving DecidableEq, Repr

/-- Side of an order. -/
inductive Side where
  | Buy
  | Sell
  deriving DecidableEq, Repr

/-- Time in force (opaque enum per the spec). -/
inductive TimeInForce where
  | GTC
  | GTX
  | FOK
  | IOC
  deriving DecidableEq, Repr

/-- Order type (opaque enum per the spec). -/
inductive OrdType where
  | Limit
  | Market
  deriving DecidableEq, Repr

/-- The error enumeration `BotError` of `bot.rs`. -/
inductive BotError where
  | OrderIdExist
  | InstrumentNotFound
  | OrderNotFound
  | InvalidOrderStatus
  | Timeout
  | Interrupted
  | Custom (msg : String)
  deriving DecidableEq, Repr

/-- Decidable equality for `Except` values, used to evaluate concrete
`Result` values in witnesses. -/
instance instDecEqExcept {ε α : Type} [DecidableEq ε] [DecidableEq α] :
    DecidableEq (Except ε α)
  | .ok a, .ok b =>
    if h : a = b then .isTrue (by rw [h])
    else .isFalse (by intro hh; cases hh; exact h rfl)
  | .ok _, .error _ => .isFalse (by intro hh; cases hh)
  | .error _, .ok _ => .isFalse (by intro hh; cases hh)
  | .error e, .error f =>
    if h : e = f then .isTrue (by rw [h])
    else .isFalse (by intro hh; cases hh; exact h rfl)

/-- Build-time error (`BuildError::Duplicate` is the variant the core raises
itself; transport construction errors are external). -/
inductive BuildErrorM where
  | Duplicate (connector_name : String) (symbol : String)
  deriving DecidableEq, Repr

/-- Rust `f64::round`: round half away from zero. -/
def rustRound (q : Rat) : Int :=
  if 0 ≤ q then ⌊q + 1/2⌋ else ⌈q - 1/2⌉

/-- The order mirror entry (crate `types`, not under `src/`); fields as
listed in §3 of the spec and as initialized by `submit_order` in `bot.rs`.
The opaque queue-position hint `q` carries no information and is omitted. -/
structure Order where
  order_id : Nat
  price_tick : Int
  qty : Rat
  leaves_qty : Rat
  tick_size : Rat
  side : Side
  time_in_force : TimeInForce
  order_type : OrdType
  status : Status
  local_timestamp : Int
  req : Status
  exec_price_tick : Int
  exch_timestamp : Int
  exec_qty : Rat
  maker : Bool
  deriving DecidableEq, Repr

/-- Terminal statuses per the spec: {Filled, Canceled, Expired, Rejected}. -/
def Status.isTerminal : Status → Bool
  | .Filled => true
  | .Canceled => true
  | .Expired => true
  | .Rejected => true
  | _ => false

/-- Modelled from the spec: `Order::update` (crate `types`, not under
`src/`); §4.4 step 4: copy the mutable fields from `u` into `e`
(status, timestamps, leaves_qty, exec_qty, exec_price_tick, maker). -/
def Order.update (e u : Order) : Order :=
  { e with
    status := u.status
    exch_timestamp := u.exch_timestamp
    local_timestamp := u.local_timestamp
    leaves_qty := u.leaves_qty
    exec_qty := u.exec_qty
    exec_price_tick := u.exec_price_tick
    maker := u.maker }

/-- Modelled from the spec: `Order::cancellable` (crate `types`, not under
`src/`); §7 calls `InvalidOrderStatus` a "cancel against a non-cancellable
order" and the glossary defines an open/active order as a mirror entry whose
status is not terminal, so an order is cancellable while not terminal. -/
def Order.cancellable (o : Order) : Bool :=
  !o.status.isTerminal

/-- Modelled from the spec: `Order::active` (crate `types`, not under
`src/`); §4.7: "inactive = status ∈ terminal set". -/
def Order.active (o : Order) : Bool :=
  !o.status.isTerminal

/-- A market-data event (`Event` of crate `types`): price, quantity,
timestamps and the flag bits tested by `Event::is` in the feed branch. -/
structure FeedEvent where
  px : Rat
  qty : Rat
  exch_ts : Int
  local_ts : Int
  bid_depth_flag : Bool
  ask_depth_flag : Bool
  buy_trade_flag : Bool
  sell_trade_flag : Bool
  deriving DecidableEq, Repr

/-- One call made on the opaque market-depth object
(`update_bid_depth` when `bid` is true, else `update_ask_depth`). -/
structure DepthUpdate where
  bid : Bool
  px : Rat
  qty : Rat
  ts : Int
  deriving DecidableEq, Repr

/-- State values of an instrument; only `position` is maintained by the
live bot core. -/
structure StateValues where
  position : Rat
  deriving DecidableEq, Repr

/-- The association-list order map: lookup by order id. -/
def omFind : List (Nat × Order) → Nat → Option Order
  | [], _ => none
  | (k, v) :: rest, key => if k = key then some v else omFind rest key

/-- The association-list order map: `HashMap::insert` semantics, replace an
existing binding in place or append a fresh one. -/
def omSet : List (Nat × Order) → Nat → Order → List (Nat × Order)
  | [], key, v => [(key, v)]
  | (k, v') :: rest, key, v =>
    if k = key then (k, v) :: rest else (k, v') :: omSet rest key v

/-- The symbol-to-asset-index map: lookup by symbol. -/
def smFind : List (String × Nat) → String → Option Nat
  | [], _ => none
  | (s, i) :: rest, sym => if s = sym then some i else smFind rest sym

/-- The symbol-to-asset-index map: `HashMap::insert` semantics. -/
def smSet : List (String × Nat) → String → Nat → List (String × Nat)
  | [], sym, i => [(sym, i)]
  | (s, j) :: rest, sym, i =>
    if s = sym then (s, i) :: rest else (s, j) :: smSet rest sym i

/-- An instrument slot: identity, market parameters, the book (as the list
of depth-update calls), the open-order mirror, state values, recent trades
with their capacity, and the latency snapshots. -/
structure Instrument where
  connector_name : String
  symbol : String
  tick_size : Rat
  lot_size : Rat
  depth : List DepthUpdate
  orders : List (Nat × Order)
  state : StateValues
  trade_capacity : Nat
  last_trades : List FeedEvent
  last_feed_latency : Option (Int × Int)
  last_order_latency : Option (Int × Int × Int)
  deriving DecidableEq, Repr

/-- A connector-level error event (opaque payload). -/
structure LiveErr where
  tag : Nat
  deriving DecidableEq, Repr

/-- The inbound event stream alphabet (`LiveEvent` of crate `types`);
the Rust `Order` variant is named `OrderEv` here, the `Error` variant
`ErrorEv`. -/
inductive LiveEvent where
  | Feed (symbol : String) (event : FeedEvent)
  | OrderEv (symbol : String) (order : Order)
  | Position (symbol : String) (qty : Rat)
  | ErrorEv (error : LiveErr)
  deriving DecidableEq, Repr

/-- Transport framing of events: `Normal`, `Batch`, `EndOfBatch`. -/
inductive LiveEventExt where
  | Normal (ev : LiveEvent)
  | Batch (ev : LiveEvent)
  | EndOfBatch
  deriving DecidableEq, Repr

/-- The wait mode (`WaitOrderResponse` of crate `types`); the Rust `None`
variant is named `NoneW` here. -/
inductive WaitOrderResponse where
  | NoneW
  | Any
  | Specified (asset_no : Nat) (order_id : Nat)
  deriving DecidableEq, Repr

/-- Requests published to a connector; the Rust `Request::Order` variant is
named `OrderMsg` here. -/
inductive Request where
  | AddInstrument (symbol : String) (tick_size : Rat)
  | OrderMsg (symbol : String) (order : Order)
  deriving DecidableEq, Repr

/-- One outcome of `PubSubList::recv_timeout` (the transport is external,
so the outcome is an oracle input). -/
inductive RecvOutcome where
  | ok (ev : LiveEventExt)
  | timeout
  | interrupted
  | err (e : BotError)
  deriving DecidableEq, Repr

/-- One iteration's worth of external inputs to the elapse loop: the receive
outcome, the wall clock sampled by `Utc::now()` during event processing, and
the `instant.elapsed()` sample (nanoseconds) at the bottom-of-loop check. -/
structure Step where
  outcome : RecvOutcome
  now : Int
  elapsed : Nat
  deriving DecidableEq, Repr

/-- The user hooks registered on the builder, threaded explicitly. -/
structure Hooks where
  error_handler : Option (LiveErr → Except BotError Unit)
  order_hook : Option (Order → Order → Except BotError Unit)

/-- The live bot state: id, instrument slots, and the symbol-to-index map
built at build time. -/
structure LiveBot where
  id : Nat
  instruments : List Instrument
  symbol_to_inst_no : List (String × Nat)
  deriving DecidableEq, Repr

/-- Replaces the instrument at index `i` (no-op when out of range, matching
the fact that the code only reaches this with an in-range index). -/
def LiveBot.setInstAt (bot : LiveBot) (i : Nat) (inst : Instrument) : LiveBot :=
  { bot with instruments := bot.instruments.set i inst }

/-- The orders map of the instrument at index `i` (empty when out of range);
a reading accessor used by the theorems. -/
def LiveBot.ordersAt (bot : LiveBot) (i : Nat) : List (Nat × Order) :=
  match bot.instruments.get? i with
  | some inst => inst.orders
  | none => []

/-- The order-map reconciliation performed by `process_event`'s `Order`
branch (`bot.rs` lines 294-314): on an occupied entry run the hook, then
accept the update when `order.exch_timestamp >= ex_order.exch_timestamp`
unless the existing status is Canceled, Expired, or Filled; on a vacant
entry insert the order. Returns the resulting map and the hook outcome. -/
def reconcileOrders (order_hook : Option (Order → Order → Except BotError Unit))
    (order : Order) (m : List (Nat × Order)) :
    List (Nat × Order) × Except BotError Unit :=
  match omFind m order.order_id with
  | some ex_order =>
    match (match order_hook with
           | some hook => hook ex_order order
           | none => Except.ok ()) with
    | .error e => (m, .error e)
    | .ok () =>
      if ex_order.exch_timestamp ≤ order.exch_timestamp then
        if ex_order.status = .Canceled ∨ ex_order.status = .Expired
            ∨ ex_order.status = .Filled then
          -- Ignores the update since the current status is the final status.
          (m, .ok ())
        else
          (omSet m order.order_id (ex_order.update order), .ok ())
      else
        (m, .ok ())
  | none => (omSet m order.order_id order, .ok ())

/-- The event dispatcher `LiveBot::process_event` (`bot.rs` lines 247-335).
The const generic `WAIT_NEXT_FEED` is threaded exactly as in the source,
which never reads it. Returns the mutated bot together with the
`Result<bool, BotError>` value; mutations made before an error persist,
as they do through `&mut self` in Rust. -/
def LiveBot.process_event (WAIT_NEXT_FEED : Bool) (hooks : Hooks) (now : Int)
    (bot : LiveBot) (ev : LiveEvent) (wait_order_response : WaitOrderResponse) :
    LiveBot × Except BotError Bool :=
  match ev with
  | .Feed symbol event =>
    match smFind bot.symbol_to_inst_no symbol with
    | none => (bot, .ok false)
    | some asset_no =>
      match bot.instruments.get? asset_no with
      | none => (bot, .ok false)
      | some instrument =>
        let instrument :=
          { instrument with last_feed_latency := some (event.exch_ts, event.local_ts) }
        let instrument :=
          if event.bid_depth_flag then
            { instrument with
              depth := instrument.depth ++ [⟨true, event.px, event.qty, event.exch_ts⟩] }
          else if event.ask_depth_flag then
            { instrument with
              depth := instrument.depth ++ [⟨false, event.px, event.qty, event.exch_ts⟩] }
          else if event.buy_trade_flag || event.sell_trade_flag then
            if instrument.trade_capacity > 0 then
              { instrument with last_trades := instrument.last_trades ++ [event] }
            else instrument
          else instrument
        (bot.setInstAt asset_no instrument, .ok false)
  | .OrderEv symbol order =>
    match smFind bot.symbol_to_inst_no symbol with
    | none => (bot, .ok false)
    | some asset_no =>
      let received_order_resp :=
        match wait_order_response with
        | .Any => true
        | .Specified wait_order_asset_no wait_order_id =>
          wait_order_id == order.order_id && wait_order_asset_no == asset_no
        | .NoneW => false
      match bot.instruments.get? asset_no with
      | none => (bot, .ok false)
      | some instrument =>
        let instrument :=
          { instrument with
            last_order_latency :=
              some (order.local_timestamp, order.exch_timestamp, now) }
        match reconcileOrders hooks.order_hook order instrument.orders with
        | (m, .error e) =>
          (bot.setInstAt asset_no { instrument with orders := m }, .error e)
        | (m, .ok ()) =>
          (bot.setInstAt asset_no { instrument with orders := m },
           .ok received_order_resp)
  | .Position symbol qty =>
    match smFind bot.symbol_to_inst_no symbol with
    | none => (bot, .ok false)
    | some asset_no =>
      match bot.instruments.get? asset_no with
      | none => (bot, .ok false)
      | some instrument =>
        (bot.setInstAt asset_no { instrument with state := { position := qty } },
         .ok false)
  | .ErrorEv error =>
    match hooks.error_handler with
    | some handler =>
      match handler error with
      | .error e => (bot, .error e)
      | .ok () => (bot, .ok false)
    | none => (bot, .ok false)

/-- Result of the elapse loop over a finite input trace: a normal return
`ret` carrying the `Ok(bool)` value, an error return `fail`, or `pending`
when the trace is exhausted while the loop is still blocked in
`recv_timeout` (carrying the loop state at that point). -/
inductive ElapseResult where
  | ret (b : Bool) (bot : LiveBot)
  | fail (e : BotError) (bot : LiveBot)
  | pending (bot : LiveBot) (in_batch : Bool) (receive_wait_resp : Bool)
      (remaining : Nat)
  deriving DecidableEq, Repr

/-- The body of `LiveBot::elapse_` (`bot.rs` lines 337-388), recursing on
the input trace; `in_batch`, `receive_wait_resp` and `remaining_duration`
are the loop's mutable locals, and the bottom-of-loop deadline check
`if elapsed > duration return Ok(true)` runs only outside a batch. -/
def LiveBot.elapseAux (W : Bool) (hooks : Hooks) (duration : Nat)
    (wait_order_response : WaitOrderResponse) :
    LiveBot → Bool → Bool → Nat → List Step → ElapseResult
  | bot, in_batch, receive_wait_resp, remaining, [] =>
    .pending bot in_batch receive_wait_resp remaining
  | bot, in_batch, receive_wait_resp, remaining, s :: rest =>
    match s.outcome with
    | .ok (.Normal ev) =>
      match LiveBot.process_event W hooks s.now bot ev wait_order_response with
      | (bot1, .error e) => .fail e bot1
      | (bot1, .ok hit) =>
        if hit && !in_batch then .ret true bot1
        else
          if !in_batch then
            if duration < s.elapsed then .ret true bot1
            else
              LiveBot.elapseAux W hooks duration wait_order_response bot1
                in_batch (receive_wait_resp || hit) (duration - s.elapsed) rest
          else
            LiveBot.elapseAux W hooks duration wait_order_response bot1
              in_batch (receive_wait_resp || hit) remaining rest
    | .ok (.Batch ev) =>
      match LiveBot.process_event W hooks s.now bot ev wait_order_response with
      | (bot1, .error e) => .fail e bot1
      | (bot1, .ok hit) =>
        LiveBot.elapseAux W hooks duration wait_order_response bot1
          true (receive_wait_resp || hit) remaining rest
    | .ok .EndOfBatch =>
      if receive_wait_resp then .ret true bot
      else
        if duration < s.elapsed then .ret true bot
        else
          LiveBot.elapseAux W hooks duration wait_order_response bot
            false receive_wait_resp (duration - s.elapsed) rest
    | .timeout => .ret true bot
    | .interrupted => .ret false bot
    | .err e => .fail e bot

/-- Entry point of the loop, with the locals at their initial values
(`in_batch = false`, `receive_wait_resp = false`, `remaining = duration`). -/
def LiveBot.elapse_ (W : Bool) (hooks : Hooks) (bot : LiveBot) (duration : Nat)
    (wait_order_response : WaitOrderResponse) (trace : List Step) : ElapseResult :=
  LiveBot.elapseAux W hooks duration wait_order_response bot false false
    duration trace

/-- `Bot::wait_order_response`: the loop with `WAIT_NEXT_FEED = false` and a
`Specified` wait mode. -/
def LiveBot.wait_order_response (hooks : Hooks) (bot : LiveBot)
    (asset_no : Nat) (order_id : Nat) (timeout : Nat) (trace : List Step) :
    ElapseResult :=
  LiveBot.elapse_ false hooks bot timeout (.Specified asset_no order_id) trace

/-- `Bot::wait_next_feed`: the loop with `WAIT_NEXT_FEED = true`; wait mode
is `Any` when `include_order_resp`, else `None`. -/
def LiveBot.wait_next_feed (hooks : Hooks) (bot : LiveBot)
    (include_order_resp : Bool) (timeout : Nat) (trace : List Step) :
    ElapseResult :=
  if include_order_resp then
    LiveBot.elapse_ true hooks bot timeout .Any trace
  else
    LiveBot.elapse_ true hooks bot timeout .NoneW trace

/-- `Bot::elapse`: the loop with `WAIT_NEXT_FEED = false` and no wait mode. -/
def LiveBot.elapse (hooks : Hooks) (bot : LiveBot) (duration : Nat)
    (trace : List Step) : ElapseResult :=
  LiveBot.elapse_ false hooks bot duration .NoneW trace

/-- Result of a synchronous facade call: `done` carries the Rust
`Result<bool, BotError>`, `blocked` is the model artifact for a `wait = true`
call whose input trace ran out while it was still blocked in the loop. -/
inductive CallResult where
  | done (r : Except BotError Bool)
  | blocked
  deriving DecidableEq, Repr

/-- The fresh mirror entry `submit_order` inserts (`bot.rs` lines 411-429):
status `New`, `leaves_qty = qty`, `price_tick = round(price / tick_size)`,
`req = New`, zeroed execution fields, `local_timestamp` from the clock. -/
def mkNewOrder (order_id : Nat) (price qty tick_size : Rat) (side : Side)
    (time_in_force : TimeInForce) (order_type : OrdType) (now : Int) : Order :=
  { order_id := order_id
    price_tick := rustRound (price / tick_size)
    qty := qty
    leaves_qty := qty
    tick_size := tick_size
    side := side
    time_in_force := time_in_force
    order_type := order_type
    status := .New
    local_timestamp := now
    req := .New
    exec_price_tick := 0
    exch_timestamp := 0
    exec_qty := 0
    maker := false }

/-- `LiveBot::submit_order` (`bot.rs` lines 390-441): validate the asset
index and the freshness of the order id, insert the `New` mirror entry,
then publish `Request::Order`; on `wait`, block in `wait_order_response`
with the hard-coded 60 s timeout. `now` is the `Utc::now()` sample,
`send_result` the transport's publish outcome (`none` = success), `trace`
the input trace consumed by the wait path. Returns the mutated bot, the
list of published messages, and the call result. -/
def LiveBot.submit_order (hooks : Hooks) (bot : LiveBot) (asset_no : Nat)
    (order_id : Nat) (price : Rat) (qty : Rat) (time_in_force : TimeInForce)
    (order_type : OrdType) (wait : Bool) (side : Side) (now : Int)
    (send_result : Option BotError) (trace : List Step) :
    LiveBot × List (Nat × Request) × CallResult :=
  match bot.instruments.get? asset_no with
  | none => (bot, [], .done (.error .InstrumentNotFound))
  | some instrument =>
    if (omFind instrument.orders order_id).isSome then
      (bot, [], .done (.error .OrderIdExist))
    else
      let symbol := instrument.symbol
      let tick_size := instrument.tick_size
      let order : Order :=
        mkNewOrder order_id price qty tick_size side time_in_force order_type now
      let instrument := { instrument with orders := omSet instrument.orders order_id order }
      let bot := bot.setInstAt asset_no instrument
      match send_result with
      | some e => (bot, [], .done (.error e))
      | none =>
        let published := [(asset_no, Request.OrderMsg symbol order)]
        if wait then
          match LiveBot.wait_order_response hooks bot asset_no order_id
              60000000000 trace with
          | .ret b bot1 => (bot1, published, .done (.ok b))
          | .fail e bot1 => (bot1, published, .done (.error e))
          | .pending bot1 _ _ _ => (bot1, published, .blocked)
        else (bot, published, .done (.ok true))

/-- `Bot::cancel` (`bot.rs` lines 576-611): validate the asset index, find
the order, reject a non-cancellable order, set `req = Canceled`, refresh
`local_timestamp`, publish the updated snapshot; on `wait`, block as in
submit. -/
def LiveBot.cancel (hooks : Hooks) (bot : LiveBot) (asset_no : Nat)
    (order_id : Nat) (wait : Bool) (now : Int) (send_result : Option BotError)
    (trace : List Step) : LiveBot × List (Nat × Request) × CallResult :=
  match bot.instruments.get? asset_no with
  | none => (bot, [], .done (.error .InstrumentNotFound))
  | some instrument =>
    let symbol := instrument.symbol
    match omFind instrument.orders order_id with
    | none => (bot, [], .done (.error .OrderNotFound))
    | some order =>
      if !order.cancellable then
        (bot, [], .done (.error .InvalidOrderStatus))
      else
        let order := { order with req := Status.Canceled, local_timestamp := now }
        let instrument := { instrument with orders := omSet instrument.orders order_id order }
        let bot := bot.setInstAt asset_no instrument
        match send_result with
        | some e => (bot, [], .done (.error e))
        | none =>
          let published := [(asset_no, Request.OrderMsg symbol order)]
          if wait then
            match LiveBot.wait_order_response hooks bot asset_no order_id
                60000000000 trace with
            | .ret b bot1 => (bot1, published, .done (.ok b))
            | .fail e bot1 => (bot1, published, .done (.error e))
            | .pending bot1 _ _ _ => (bot1, published, .blocked)
          else (bot, published, .done (.ok true))

/-- `Bot::state_values`: `self.instruments.get(asset_no).unwrap().state`;
`none` is the out-of-range `unwrap` panic. -/
def LiveBot.state_values (bot : LiveBot) (asset_no : Nat) : Option StateValues :=
  (bot.instruments.get? asset_no).map (·.state)

/-- `Bot::depth`: the book of the slot; `none` is the `unwrap` panic. -/
def LiveBot.depth (bot : LiveBot) (asset_no : Nat) : Option (List DepthUpdate) :=
  (bot.instruments.get? asset_no).map (·.depth)

/-- `Bot::orders`: the open-order map of the slot; `none` is the `unwrap`
panic. -/
def LiveBot.orders (bot : LiveBot) (asset_no : Nat) :
    Option (List (Nat × Order)) :=
  (bot.instruments.get? asset_no).map (·.orders)

/-- `Bot::last_trades`: the recent trades of the slot; `none` is the
`unwrap` panic. -/
def LiveBot.last_trades (bot : LiveBot) (asset_no : Nat) :
    Option (List FeedEvent) :=
  (bot.instruments.get? asset_no).map (·.last_trades)

/-- `Bot::feed_latency`: `unwrap` then read the latency snapshot; the outer
`none` is the panic, the inner option is the snapshot itself. -/
def LiveBot.feed_latency (bot : LiveBot) (asset_no : Nat) :
    Option (Option (Int × Int)) :=
  (bot.instruments.get? asset_no).map (·.last_feed_latency)

/-- `Bot::order_latency`: as `feed_latency` for the order-latency snapshot. -/
def LiveBot.order_latency (bot : LiveBot) (asset_no : Nat) :
    Option (Option (Int × Int × Int)) :=
  (bot.instruments.get? asset_no).map (·.last_order_latency)

/-- `Bot::clear_last_trades` (`bot.rs` lines 486-505): `Some` clears one
slot through `get_mut(..).unwrap()` — `none` is the panic on an
out-of-range index — and `None` clears every slot. -/
def LiveBot.clear_last_trades (bot : LiveBot) (asset_no : Option Nat) :
    Option LiveBot :=
  match asset_no with
  | some asset_no =>
    match bot.instruments.get? asset_no with
    | none => none
    | some instrument =>
      some (bot.setInstAt asset_no { instrument with last_trades := [] })
  | none =>
    some { bot with
           instruments := bot.instruments.map fun i => { i with last_trades := [] } }

/-- `Bot::clear_inactive_orders` (`bot.rs` lines 613-627): `Some` retains
the active orders of one slot through `if let Some(..) = get_mut(..)` — a
silent no-op on an out-of-range index — and `None` does it for every slot. -/
def LiveBot.clear_inactive_orders (bot : LiveBot) (asset_no : Option Nat) :
    LiveBot :=
  match asset_no with
  | some inst_no =>
    match bot.instruments.get? inst_no with
    | none => bot
    | some instrument =>
      bot.setInstAt inst_no
        { instrument with orders := instrument.orders.filter fun p => p.2.active }
  | none =>
    { bot with
      instruments := bot.instruments.map fun i =>
        { i with orders := i.orders.filter fun p => p.2.active } }

/-- The duplicate key `format!("{}/{}", connector_name, symbol)` inserted
into the builder's `HashSet`. -/
def dupKey (i : Instrument) : String :=
  i.connector_name ++ "/" ++ i.symbol

/-- The builder's duplicate scan: walk the instruments inserting each key
into the seen-set, reporting the first collision. -/
def findDup : List Instrument → List String → Option (String × String)
  | [], _ => none
  | i :: rest, seen =>
    if dupKey i ∈ seen then some (i.connector_name, i.symbol)
    else findDup rest (dupKey i :: seen)

/-- The builder's symbol map: `HashMap` collected from
`(symbol, asset_no)` over the enumerated instruments, a later binding
overwriting an earlier one with the same symbol. -/
def smOfInstruments (l : List Instrument) : List (String × Nat) :=
  l.enum.foldl (fun m p => smSet m p.2.symbol p.1) []

/-- `LiveBotBuilder::build` (`bot.rs` lines 130-199): reject duplicate
`(connector, symbol)` pairs, build the symbol map, and publish one
`Request::AddInstrument` per instrument on the endpoint at the index the
symbol map resolves its symbol to (the `unwrap` at line 176 cannot fail
because every instrument's symbol is in the map). Endpoint construction
and the sends are external transport effects; the model returns the built
bot together with the published messages. -/
def build (id : Nat) (instruments : List Instrument) :
    Except BuildErrorM (LiveBot × List (Nat × Request)) :=
  match findDup instruments [] with
  | some (c, s) => .error (.Duplicate c s)
  | none =>
    let m := smOfInstruments instruments
    let published := instruments.map fun inst =>
      ((smFind m inst.symbol).getD 0,
       Request.AddInstrument inst.symbol inst.tick_size)
    .ok ({ id := id, instruments := instruments, symbol_to_inst_no := m },
         published)

section Helpers

/-- Looking up the key just set yields the value set. -/
theorem omFind_omSet_self (m : List (Nat × Order)) (k : Nat) (v : Order) :
    omFind (omSet m k v) k = some v := by
  induction m with
  | nil => simp [omSet, omFind]
  | cons hd tl ih =>
    obtain ⟨k', v'⟩ := hd
    by_cases h : k' = k <;> simp [omSet, omFind, h, ih]

/-- Setting a key to the value it already holds leaves the map unchanged. -/
theorem omSet_eq_of_find (m : List (Nat × Order)) (k : Nat) (v : Order)
    (h : omFind m k = some v) : omSet m k v = m := by
  induction m with
  | nil => simp [omFind] at h
  | cons hd tl ih =>
    obtain ⟨k', v'⟩ := hd
    by_cases hk : k' = k
    · simp [omFind, hk] at h
      simp [omSet, hk, h]
    · simp [omFind, hk] at h
      simp [omSet, hk, ih h]

/-- The orders map of the slot a `setInstAt` wrote. -/
theorem ordersAt_setInstAt_self (bot : LiveBot) (i : Nat) (inst0 inst : Instrument)
    (h : bot.instruments.get? i = some inst0) :
    (bot.setInstAt i inst).ordersAt i = inst.orders := by
  rw [List.get?_eq_getElem?] at h
  have hlen : i < bot.instruments.length := (List.getElem?_eq_some.mp h).1
  simp [LiveBot.setInstAt, LiveBot.ordersAt, List.getElem?_set_self hlen]

/-- The orders map of a slot `setInstAt` did not touch. -/
theorem ordersAt_setInstAt_ne (bot : LiveBot) (i j : Nat) (inst : Instrument)
    (h : i ≠ j) : (bot.setInstAt i inst).ordersAt j = bot.ordersAt j := by
  simp [LiveBot.setInstAt, LiveBot.ordersAt, List.getElem?_set_ne h]

/-- Updating an already-updated entry with the same inbound order changes
nothing: the copied fields are overwritten with the same values. -/
theorem Order.update_idem (e u : Order) :
    (e.update u).update u = e.update u := rfl

/-- Updating an order with itself is the identity. -/
theorem Order.update_self (u : Order) : u.update u = u := rfl

end Helpers

section Characterization

/-- The orders map of slot `i` after dispatching an inbound order update:
unchanged unless the event's symbol resolves to `i`, in which case it is the
reconciliation result. -/
theorem ordersAt_process_orderEv (W : Bool) (hooks : Hooks) (now : Int)
    (bot : LiveBot) (sym : String) (u : Order) (wor : WaitOrderResponse)
    (i : Nat) :
    ((LiveBot.process_event W hooks now bot (.OrderEv sym u) wor).1).ordersAt i =
      (match smFind bot.symbol_to_inst_no sym with
       | none => bot.ordersAt i
       | some j =>
         match bot.instruments.get? j with
         | none => bot.ordersAt i
         | some inst =>
           if j = i then (reconcileOrders hooks.order_hook u inst.orders).1
           else bot.ordersAt i) := by
  cases hsm : smFind bot.symbol_to_inst_no sym with
  | none => simp [LiveBot.process_event, hsm]
  | some j =>
    cases hj : bot.instruments.get? j with
    | none =>
      have hj' := hj
      simp only [List.get?_eq_getElem?] at hj'
      simp [LiveBot.process_event, hsm, hj']
    | some inst =>
      have hj' := hj
      simp only [List.get?_eq_getElem?] at hj'
      rcases hrec : reconcileOrders hooks.order_hook u inst.orders with ⟨m, res⟩
      by_cases hji : j = i
      · subst hji
        cases res with
        | error e =>
          simp [LiveBot.process_event, hsm, hj', hrec,
                ordersAt_setInstAt_self bot j inst _ hj]
        | ok v =>
          simp [LiveBot.process_event, hsm, hj', hrec,
                ordersAt_setInstAt_self bot j inst _ hj]
      · cases res with
        | error e =>
          simp [LiveBot.process_event, hsm, hj', hrec, hji,
                ordersAt_setInstAt_ne bot j i _ hji]
        | ok v =>
          simp [LiveBot.process_event, hsm, hj', hrec, hji,
                ordersAt_setInstAt_ne bot j i _ hji]

/-- Reconciliation drops the update when the existing status is one of the
three the code treats as final (Canceled, Expired, Filled). -/
theorem reconcile_fst_eq_of_final
    (hook : Option (Order → Order → Except BotError Unit)) (u : Order)
    (m : List (Nat × Order)) (e : Order)
    (hfind : omFind m u.order_id = some e)
    (hterm : e.status = .Canceled ∨ e.status = .Expired ∨ e.status = .Filled) :
    (reconcileOrders hook u m).1 = m := by
  simp only [reconcileOrders, hfind]
  cases hhook : (match hook with | some h => h e u | none => Except.ok ()) with
  | error e' => simp [hhook]
  | ok v =>
    cases v
    by_cases hle : e.exch_timestamp ≤ u.exch_timestamp
    · simp only [hhook]
      rw [if_pos hle, if_pos hterm]
    · simp only [hhook]
      rw [if_neg hle]

/-- Reconciliation drops a stale update (older exchange timestamp). -/
theorem reconcile_fst_eq_of_stale
    (hook : Option (Order → Order → Except BotError Unit)) (u : Order)
    (m : List (Nat × Order)) (e : Order)
    (hfind : omFind m u.order_id = some e)
    (hstale : u.exch_timestamp < e.exch_timestamp) :
    (reconcileOrders hook u m).1 = m := by
  simp only [reconcileOrders, hfind]
  cases hhook : (match hook with | some h => h e u | none => Except.ok ()) with
  | error e' => simp [hhook]
  | ok v =>
    cases v
    have hle : ¬ e.exch_timestamp ≤ u.exch_timestamp := by omega
    simp only [hhook]
    rw [if_neg hle]

end Characterization

section Fixtures

/-- No registered hooks (the builder default). -/
def hooks0 : Hooks := ⟨none, none⟩

/-- A bid-depth feed event fixture. -/
def feBid : FeedEvent :=
  { px := 100, qty := 2, exch_ts := 10, local_ts := 11,
    bid_depth_flag := true, ask_depth_flag := false,
    buy_trade_flag := false, sell_trade_flag := false }

/-- A one-instrument fixture slot. -/
def inst0 : Instrument :=
  { connector_name := "c", symbol := "S", tick_size := 1, lot_size := 1,
    depth := [], orders := [], state := ⟨0⟩, trade_capacity := 0,
    last_trades := [], last_feed_latency := none, last_order_latency := none }

/-- A one-instrument bot fixture. -/
def bot0 : LiveBot :=
  { id := 0, instruments := [inst0], symbol_to_inst_no := [("S", 0)] }

/-- A mirror entry in the `Rejected` status. -/
def rejOrder : Order :=
  { order_id := 1, price_tick := 1000, qty := 2, leaves_qty := 2,
    tick_size := 1, side := .Buy, time_in_force := .GTC,
    order_type := .Limit, status := .Rejected, local_timestamp := 1,
    req := .New, exec_price_tick := 0, exch_timestamp := 10, exec_qty := 0,
    maker := false }

/-- A newer inbound `Filled` update for the same order id. -/
def updFilled : Order :=
  { rejOrder with
    status := .Filled
    leaves_qty := 0
    exec_qty := 2
    exch_timestamp := 20 }

/-- The bot holding the rejected mirror entry. -/
def botRej : LiveBot :=
  { id := 0, instruments := [{ inst0 with orders := [(1, rejOrder)] }],
    symbol_to_inst_no := [("S", 0)] }

/-- A mirror entry in the `Filled` status. -/
def filledOrder : Order :=
  { rejOrder with
    status := .Filled
    leaves_qty := 0
    exec_qty := 2
    exch_timestamp := 20 }

/-- The bot holding the filled mirror entry. -/
def botFilled : LiveBot :=
  { id := 0, instruments := [{ inst0 with orders := [(1, filledOrder)] }],
    symbol_to_inst_no := [("S", 0)] }

/-- A yet newer inbound update for the same order id. -/
def updLate : Order :=
  { rejOrder with status := .Canceled, exch_timestamp := 30 }

/-- A mirror entry in the `PartiallyFilled` status at exchange time 20. -/
def pfOrder : Order :=
  { rejOrder with
    status := .PartiallyFilled
    leaves_qty := 1
    exec_qty := 1
    exch_timestamp := 20 }

/-- The bot holding the partially-filled mirror entry. -/
def botPF : LiveBot :=
  { id := 0, instruments := [{ inst0 with orders := [(1, pfOrder)] }],
    symbol_to_inst_no := [("S", 0)] }

/-- A stale inbound update (exchange time 15 < 20). -/
def updStale : Order :=
  { rejOrder with status := .PartiallyFilled, exch_timestamp := 15 }

end Fixtures

/-- C1, counterexample: a mirror entry whose status is `Rejected` — a
terminal status per the claim — is overwritten by a later inbound order
event with the same order id, because the code's final-status test covers
only Canceled, Expired and Filled. -/
theorem C1_counterexample :
    omFind (botRej.ordersAt 0) 1 = some rejOrder ∧
    rejOrder.status = Status.Rejected ∧
    omFind (((LiveBot.process_event false hooks0 0 botRej
        (.OrderEv "S" updFilled) .NoneW).1).ordersAt 0) 1
      = some (rejOrder.update updFilled) ∧
    rejOrder.update updFilled ≠ rejOrder := by
  decide

/-- C1 (amended): once a mirror entry's status is Filled, Canceled, or
Expired — the statuses the code's final-status test actually covers, which
exclude Rejected — processing any further inbound Order event with the
same order id leaves that mirror entry unchanged. -/
theorem C1_amended (W : Bool) (hooks : Hooks) (now : Int) (bot : LiveBot)
    (sym : String) (u : Order) (wor : WaitOrderResponse) (i : Nat)
    (inst : Instrument) (e : Order)
    (hinst : bot.instruments.get? i = some inst)
    (hfind : omFind inst.orders u.order_id = some e)
    (hterm : e.status = .Canceled ∨ e.status = .Expired ∨ e.status = .Filled) :
    omFind (((LiveBot.process_event W hooks now bot
        (.OrderEv sym u) wor).1).ordersAt i) u.order_id = some e := by
  rw [ordersAt_process_orderEv]
  have hinstE := hinst
  simp only [List.get?_eq_getElem?] at hinstE
  have hbotAt : bot.ordersAt i = inst.orders := by
    simp [LiveBot.ordersAt, hinstE]
  cases hsm : smFind bot.symbol_to_inst_no sym with
  | none => simp only [hsm]; rw [hbotAt]; exact hfind
  | some j =>
    simp only [hsm]
    cases hj : bot.instruments.get? j with
    | none => simp only [hj]; rw [hbotAt]; exact hfind
    | some instJ =>
      simp only [hj]
      by_cases hji : j = i
      · subst hji
        rw [if_pos rfl]
        have hIJ : instJ = inst := by
          rw [hj] at hinst
          exact Option.some.inj hinst
        subst hIJ
        rw [reconcile_fst_eq_of_final hooks.order_hook u instJ.orders e hfind hterm]
        exact hfind
      · rw [if_neg hji, hbotAt]; exact hfind

/-- C1, witness for the amended theorem at a concrete input: a `Filled`
entry survives a later `Canceled` update unchanged. -/
theorem C1_witness :
    omFind (((LiveBot.process_event false hooks0 7 botFilled
        (.OrderEv "S" updLate) .NoneW).1).ordersAt 0) 1 = some filledOrder :=
  C1_amended false hooks0 7 botFilled "S" updLate .NoneW 0
    { inst0 with orders := [(1, filledOrder)] } filledOrder
    (by decide) (by decide) (Or.inr (Or.inr (by decide)))

/-- C6: an inbound order update strictly older than the mirror entry
(smaller exchange timestamp) leaves the entry unchanged: applying an older
update after a newer one is a no-op on the entry. -/
theorem C6_stale_noop (W : Bool) (hooks : Hooks) (now : Int) (bot : LiveBot)
    (sym : String) (u : Order) (wor : WaitOrderResponse) (i : Nat)
    (inst : Instrument) (e : Order)
    (hinst : bot.instruments.get? i = some inst)
    (hfind : omFind inst.orders u.order_id = some e)
    (hstale : u.exch_timestamp < e.exch_timestamp) :
    omFind (((LiveBot.process_event W hooks now bot
        (.OrderEv sym u) wor).1).ordersAt i) u.order_id = some e := by
  rw [ordersAt_process_orderEv]
  have hinstE := hinst
  simp only [List.get?_eq_getElem?] at hinstE
  have hbotAt : bot.ordersAt i = inst.orders := by
    simp [LiveBot.ordersAt, hinstE]
  cases hsm : smFind bot.symbol_to_inst_no sym with
  | none => simp only [hsm]; rw [hbotAt]; exact hfind
  | some j =>
    simp only [hsm]
    cases hj : bot.instruments.get? j with
    | none => simp only [hj]; rw [hbotAt]; exact hfind
    | some instJ =>
      simp only [hj]
      by_cases hji : j = i
      · subst hji
        rw [if_pos rfl]
        have hIJ : instJ = inst := by
          rw [hj] at hinst
          exact Option.some.inj hinst
        subst hIJ
        rw [reconcile_fst_eq_of_stale hooks.order_hook u instJ.orders e hfind hstale]
        exact hfind
      · rw [if_neg hji, hbotAt]; exact hfind

/-- C6, witness: a `PartiallyFilled` entry at exchange time 20 is
unchanged by a stale update at exchange time 15. -/
theorem C6_witness :
    omFind (((LiveBot.process_event false hooks0 7 botPF
        (.OrderEv "S" updStale) .NoneW).1).ordersAt 0) 1 = some pfOrder :=
  C6_stale_noop false hooks0 7 botPF "S" updStale .NoneW 0
    { inst0 with orders := [(1, pfOrder)] } pfOrder
    (by decide) (by decide) (by decide)

/-- The bot after dispatching an inbound order update whose symbol resolves
to a valid slot: the slot's latency snapshot is refreshed and its orders map
reconciled, whatever the hook outcome. -/
theorem process_orderEv_fst (W : Bool) (hooks : Hooks) (now : Int)
    (bot : LiveBot) (sym : String) (u : Order) (wor : WaitOrderResponse)
    (j : Nat) (inst : Instrument)
    (hsm : smFind bot.symbol_to_inst_no sym = some j)
    (hj : bot.instruments.get? j = some inst) :
    (LiveBot.process_event W hooks now bot (.OrderEv sym u) wor).1
      = bot.setInstAt j
          { inst with
            last_order_latency := some (u.local_timestamp, u.exch_timestamp, now)
            orders := (reconcileOrders hooks.order_hook u inst.orders).1 } := by
  have hj' := hj
  simp only [List.get?_eq_getElem?] at hj'
  rcases hrec : reconcileOrders hooks.order_hook u inst.orders with ⟨m, res⟩
  cases res with
  | error e => simp [LiveBot.process_event, hsm, hj', hrec]
  | ok v => simp [LiveBot.process_event, hsm, hj', hrec]

/-- Reconciling the same inbound order a second time leaves the map as it
was after the first reconciliation. -/
theorem reconcile_idem (hook : Option (Order → Order → Except BotError Unit))
    (u : Order) (m : List (Nat × Order)) :
    (reconcileOrders hook u (reconcileOrders hook u m).1).1
      = (reconcileOrders hook u m).1 := by
  cases h0 : omFind m u.order_id with
  | none =>
    have hm1 : (reconcileOrders hook u m).1 = omSet m u.order_id u := by
      simp only [reconcileOrders, h0]
    rw [hm1]
    have hf : omFind (omSet m u.order_id u) u.order_id = some u :=
      omFind_omSet_self m u.order_id u
    simp only [reconcileOrders, hf]
    cases hh : (match hook with | some h => h u u | none => Except.ok ()) with
    | error e => simp [hh]
    | ok v =>
      cases v
      simp only [hh]
      rw [if_pos (le_refl u.exch_timestamp)]
      by_cases ht : u.status = .Canceled ∨ u.status = .Expired ∨ u.status = .Filled
      · rw [if_pos ht]
      · rw [if_neg ht]
        rw [Order.update_self]
        exact omSet_eq_of_find _ _ _ hf
  | some e =>
    cases hh : (match hook with | some h => h e u | none => Except.ok ()) with
    | error er =>
      have hm1 : (reconcileOrders hook u m).1 = m := by
        simp only [reconcileOrders, h0, hh]
      rw [hm1]; exact hm1
    | ok v =>
      cases v
      by_cases hle : e.exch_timestamp ≤ u.exch_timestamp
      · by_cases ht : e.status = .Canceled ∨ e.status = .Expired ∨ e.status = .Filled
        · have hm1 : (reconcileOrders hook u m).1 = m := by
            simp only [reconcileOrders, h0, hh]
            rw [if_pos hle, if_pos ht]
          rw [hm1]; exact hm1
        · have hm1 : (reconcileOrders hook u m).1 = omSet m u.order_id (e.update u) := by
            simp only [reconcileOrders, h0, hh]
            rw [if_pos hle, if_neg ht]
          rw [hm1]
          have hf : omFind (omSet m u.order_id (e.update u)) u.order_id
              = some (e.update u) := omFind_omSet_self _ _ _
          simp only [reconcileOrders, hf]
          cases hh2 : (match hook with
                      | some h => h (e.update u) u
                      | none => Except.ok ()) with
          | error er => simp [hh2]
          | ok v2 =>
            cases v2
            simp only [hh2]
            rw [if_pos (show (e.update u).exch_timestamp ≤ u.exch_timestamp from
                  le_of_eq rfl)]
            by_cases ht2 : (e.update u).status = .Canceled
                ∨ (e.update u).status = .Expired ∨ (e.update u).status = .Filled
            · rw [if_pos ht2]
            · rw [if_neg ht2]
              rw [Order.update_idem]
              exact omSet_eq_of_find _ _ _ hf
      · have hm1 : (reconcileOrders hook u m).1 = m := by
          simp only [reconcileOrders, h0, hh]
          rw [if_neg hle]
        rw [hm1]; exact hm1

/-- C7: processing the same inbound order update twice in succession leaves
the order-mirror state — the orders map of every instrument — exactly as
processing it once does: the timestamp comparison absorbs the second copy. -/
theorem C7_order_update_idempotent (W : Bool) (hooks : Hooks)
    (now1 now2 : Int) (bot : LiveBot) (sym : String) (u : Order)
    (wor : WaitOrderResponse) :
    ((LiveBot.process_event W hooks now2
        ((LiveBot.process_event W hooks now1 bot
            (.OrderEv sym u) wor).1)
        (.OrderEv sym u) wor).1).instruments.map (fun i => i.orders)
      = ((LiveBot.process_event W hooks now1 bot
            (.OrderEv sym u) wor).1).instruments.map (fun i => i.orders) := by
  cases hsm : smFind bot.symbol_to_inst_no sym with
  | none =>
    have h1 : (LiveBot.process_event W hooks now1 bot (.OrderEv sym u) wor).1
        = bot := by
      simp [LiveBot.process_event, hsm]
    rw [h1]
    have h2 : (LiveBot.process_event W hooks now2 bot (.OrderEv sym u) wor).1
        = bot := by
      simp [LiveBot.process_event, hsm]
    rw [h2]
  | some j =>
    cases hj : bot.instruments.get? j with
    | none =>
      have hj' := hj
      simp only [List.get?_eq_getElem?] at hj'
      have h1 : (LiveBot.process_event W hooks now1 bot (.OrderEv sym u) wor).1
          = bot := by
        simp [LiveBot.process_event, hsm, hj']
      rw [h1]
      have h2 : (LiveBot.process_event W hooks now2 bot (.OrderEv sym u) wor).1
          = bot := by
        simp [LiveBot.process_event, hsm, hj']
      rw [h2]
    | some inst =>
      have hj' := hj
      simp only [List.get?_eq_getElem?] at hj'
      have hlen : j < bot.instruments.length := (List.getElem?_eq_some.mp hj').1
      have h1 := process_orderEv_fst W hooks now1 bot sym u wor j inst hsm hj
      rw [h1]
      have hsm1 : smFind ((bot.setInstAt j
          { inst with
            last_order_latency := some (u.local_timestamp, u.exch_timestamp, now1)
            orders := (reconcileOrders hooks.order_hook u inst.orders).1
          }).symbol_to_inst_no) sym = some j := by
        simpa [LiveBot.setInstAt] using hsm
      have hj1 : ((bot.setInstAt j
          { inst with
            last_order_latency := some (u.local_timestamp, u.exch_timestamp, now1)
            orders := (reconcileOrders hooks.order_hook u inst.orders).1
          }).instruments).get? j = some
          { inst with
            last_order_latency := some (u.local_timestamp, u.exch_timestamp, now1)
            orders := (reconcileOrders hooks.order_hook u inst.orders).1 } := by
        simp [LiveBot.setInstAt, List.get?_eq_getElem?, List.getElem?_set_self hlen]
      have h2 := process_orderEv_fst W hooks now2 _ sym u wor j _ hsm1 hj1
      rw [h2]
      simp only [LiveBot.setInstAt, List.set_set, List.map_set]
      rw [reconcile_idem]

/-- Dispatching a feed event always reports the wait condition unsatisfied:
the `Ok(bool)` component is `false` on every path of the feed branch. -/
theorem process_feed_snd (W : Bool) (hooks : Hooks) (now : Int)
    (bot : LiveBot) (sym : String) (fe : FeedEvent)
    (wor : WaitOrderResponse) :
    (LiveBot.process_event W hooks now bot (.Feed sym fe) wor).2
      = Except.ok false := by
  cases hsm : smFind bot.symbol_to_inst_no sym with
  | none => simp [LiveBot.process_event, hsm]
  | some j =>
    cases hj : bot.instruments[j]? with
    | none => simp [LiveBot.process_event, hsm, hj]
    | some inst => simp [LiveBot.process_event, hsm, hj]

/-- C2, counterexample: a feed event for a known symbol received and
processed outside a batch well before the timeout does not wake
`wait_next_feed` — the loop keeps waiting (in both `include_order_resp`
modes), because the threaded `WAIT_NEXT_FEED` flag is never consulted. -/
theorem C2_counterexample :
    LiveBot.wait_next_feed hooks0 bot0 false 100
        [{ outcome := .ok (.Normal (.Feed "S" feBid)), now := 0, elapsed := 5 }]
      = .pending ((LiveBot.process_event true hooks0 0 bot0
          (.Feed "S" feBid) .NoneW).1) false false 95 ∧
    LiveBot.wait_next_feed hooks0 bot0 true 100
        [{ outcome := .ok (.Normal (.Feed "S" feBid)), now := 0, elapsed := 5 }]
      = .pending ((LiveBot.process_event true hooks0 0 bot0
          (.Feed "S" feBid) .Any).1) false false 95 := by
  decide

/-- C2 (amended): a feed event received and processed outside a batch
before the timeout does not return control: the loop applies the feed to
the book and continues waiting with the remaining duration refreshed;
`wait_next_feed` is woken only by a timeout, an interruption, or — with
`include_order_resp` — an order response. -/
theorem C2_amended (W : Bool) (hooks : Hooks) (duration : Nat)
    (wor : WaitOrderResponse) (bot : LiveBot) (saw : Bool) (remaining : Nat)
    (now : Int) (elapsed : Nat) (rest : List Step) (sym : String)
    (fe : FeedEvent)
    (hle : elapsed ≤ duration) :
    LiveBot.elapseAux W hooks duration wor bot false saw remaining
        ({ outcome := .ok (.Normal (.Feed sym fe)), now := now,
           elapsed := elapsed } :: rest)
      = LiveBot.elapseAux W hooks duration wor
          (LiveBot.process_event W hooks now bot (.Feed sym fe) wor).1
          false saw (duration - elapsed) rest := by
  rcases hp : LiveBot.process_event W hooks now bot (.Feed sym fe) wor
    with ⟨bot1, r⟩
  have hr : r = Except.ok false := by
    have h2 := process_feed_snd W hooks now bot sym fe wor
    rw [hp] at h2
    exact h2
  subst hr
  have hnlt : ¬ duration < elapsed := by omega
  simp [LiveBot.elapseAux, hp, hnlt]

/-- C2, witness for the amended theorem at a concrete input. -/
theorem C2_witness :
    LiveBot.elapseAux true hooks0 100 .NoneW bot0 false false 100
        [{ outcome := .ok (.Normal (.Feed "S" feBid)), now := 0, elapsed := 5 }]
      = LiveBot.elapseAux true hooks0 100 .NoneW
          (LiveBot.process_event true hooks0 0 bot0 (.Feed "S" feBid) .NoneW).1
          false false 95 [] :=
  C2_amended true hooks0 100 .NoneW bot0 false 100 0 5 [] "S" feBid
    (by decide)

/-- C3, counterexample: after a `Batch` event has opened a batch whose
`EndOfBatch` has not arrived, the loop is still waiting (first conjunct);
a transport `Timeout` arriving at that point makes the call return
`Ok(true)` immediately, mid-batch — not at a batch boundary (second
conjunct). -/
theorem C3_counterexample :
    LiveBot.elapse_ false hooks0 bot0 1000000000 (.Specified 0 1)
        [{ outcome := .ok (.Batch (.Feed "S" feBid)), now := 0, elapsed := 0 }]
      = .pending ((LiveBot.process_event false hooks0 0 bot0
          (.Feed "S" feBid) (.Specified 0 1)).1) true false 1000000000 ∧
    LiveBot.elapse_ false hooks0 bot0 1000000000 (.Specified 0 1)
        [{ outcome := .ok (.Batch (.Feed "S" feBid)), now := 0, elapsed := 0 },
         { outcome := .timeout, now := 0, elapsed := 0 }]
      = .ret true ((LiveBot.process_event false hooks0 0 bot0
          (.Feed "S" feBid) (.Specified 0 1)).1) := by
  decide

/-- C3 (amended): while the loop is inside a batch, an event that is
received and processed successfully never returns control — a wait
satisfied inside a batch is only remembered (`receive_wait_resp`) and can
return only at `EndOfBatch`; however a transport `Timeout`, an
`Interrupted`, another transport error, or a hook error still returns
immediately, even mid-batch. -/
theorem C3_amended (W : Bool) (hooks : Hooks) (duration : Nat)
    (wor : WaitOrderResponse) (bot bot1 : LiveBot) (saw : Bool)
    (remaining : Nat) (s : Step) (rest : List Step) (ev : LiveEvent)
    (hit : Bool)
    (hev : s.outcome = .ok (.Normal ev) ∨ s.outcome = .ok (.Batch ev))
    (hproc : LiveBot.process_event W hooks s.now bot ev wor
      = (bot1, Except.ok hit)) :
    LiveBot.elapseAux W hooks duration wor bot true saw remaining (s :: rest)
      = LiveBot.elapseAux W hooks duration wor bot1 true (saw || hit)
          remaining rest := by
  obtain ⟨o, snow, selapsed⟩ := s
  dsimp only at hev hproc
  rcases hev with hev | hev
  · subst hev
    simp [LiveBot.elapseAux, hproc]
  · subst hev
    simp [LiveBot.elapseAux, hproc]

/-- C3, witness for the amended theorem at a concrete input: a `Batch`
feed event processed while already inside a batch continues the loop. -/
theorem C3_witness :
    LiveBot.elapseAux false hooks0 1000000000 (.Specified 0 1) bot0 true false
        1000000000
        [{ outcome := .ok (.Batch (.Feed "S" feBid)), now := 0, elapsed := 0 }]
      = LiveBot.elapseAux false hooks0 1000000000 (.Specified 0 1)
          ((LiveBot.process_event false hooks0 0 bot0 (.Feed "S" feBid)
              (.Specified 0 1)).1) true false 1000000000 [] :=
  C3_amended false hooks0 1000000000 (.Specified 0 1) bot0
    ((LiveBot.process_event false hooks0 0 bot0 (.Feed "S" feBid)
        (.Specified 0 1)).1) false 1000000000
    { outcome := .ok (.Batch (.Feed "S" feBid)), now := 0, elapsed := 0 } []
    (.Feed "S" feBid) false (Or.inr (by decide)) (by decide)

/-- C4: `submit_order` on a valid asset index and a fresh order id succeeds:
it returns `Ok(true)` (with `wait = false`), the mirror afterwards contains
the id with status `New`, `leaves_qty = qty` and
`price_tick = round(price / tick_size)`, and one `Request::Order` is
published; on an out-of-range index it fails `InstrumentNotFound`, and on a
duplicate id it fails `OrderIdExist`, leaving the order map unchanged in
both failure cases. -/
theorem C4_submit (hooks : Hooks) (bot : LiveBot) (asset_no order_id : Nat)
    (price qty : Rat) (tif : TimeInForce) (ot : OrdType) (side : Side)
    (now : Int) (wait : Bool) (send_result : Option BotError)
    (trace : List Step) :
    (∀ inst, bot.instruments.get? asset_no = some inst →
      omFind inst.orders order_id = none →
      LiveBot.submit_order hooks bot asset_no order_id price qty tif ot
          false side now none trace
        = (bot.setInstAt asset_no
            { inst with orders := omSet inst.orders order_id (mkNewOrder order_id price qty inst.tick_size side tif ot now) },
           [(asset_no, Request.OrderMsg inst.symbol
              (mkNewOrder order_id price qty inst.tick_size side tif ot now))],
           .done (.ok true))
        ∧ omFind (((LiveBot.submit_order hooks bot asset_no order_id price qty
              tif ot false side now none trace).1).ordersAt asset_no) order_id
            = some (mkNewOrder order_id price qty inst.tick_size side tif ot now))
    ∧ (bot.instruments.get? asset_no = none →
        LiveBot.submit_order hooks bot asset_no order_id price qty tif ot
            wait side now send_result trace
          = (bot, [], .done (.error .InstrumentNotFound)))
    ∧ (∀ inst e, bot.instruments.get? asset_no = some inst →
        omFind inst.orders order_id = some e →
        LiveBot.submit_order hooks bot asset_no order_id price qty tif ot
            wait side now send_result trace
          = (bot, [], .done (.error .OrderIdExist))) := by
  refine ⟨fun inst h hfind => ?_, fun h => ?_, fun inst e h hfind => ?_⟩
  · have h' := h
    simp only [List.get?_eq_getElem?] at h'
    have hcall : LiveBot.submit_order hooks bot asset_no order_id price qty
        tif ot false side now none trace
        = (bot.setInstAt asset_no
            { inst with orders := omSet inst.orders order_id (mkNewOrder order_id price qty inst.tick_size side tif ot now) },
           [(asset_no, Request.OrderMsg inst.symbol
              (mkNewOrder order_id price qty inst.tick_size side tif ot now))],
           .done (.ok true)) := by
      simp [LiveBot.submit_order, h', hfind]
    refine ⟨hcall, ?_⟩
    rw [hcall]
    rw [ordersAt_setInstAt_self bot asset_no inst _ h]
    exact omFind_omSet_self _ _ _
  · have h' := h
    simp only [List.get?_eq_getElem?] at h'
    simp [LiveBot.submit_order, h']
  · have h' := h
    simp only [List.get?_eq_getElem?] at h'
    simp [LiveBot.submit_order, h', hfind]

/-- C4, witness: the three contract cases at concrete inputs. -/
theorem C4_witness :
    (LiveBot.submit_order hooks0 bot0 0 7 100 2 .GTC .Limit false .Buy 3
        none []
      = (bot0.setInstAt 0
          { inst0 with orders := omSet inst0.orders 7 (mkNewOrder 7 100 2 inst0.tick_size .Buy .GTC .Limit 3) },
         [(0, Request.OrderMsg inst0.symbol
            (mkNewOrder 7 100 2 inst0.tick_size .Buy .GTC .Limit 3))],
         .done (.ok true))
      ∧ omFind (((LiveBot.submit_order hooks0 bot0 0 7 100 2 .GTC .Limit
            false .Buy 3 none []).1).ordersAt 0) 7
          = some (mkNewOrder 7 100 2 inst0.tick_size .Buy .GTC .Limit 3))
    ∧ LiveBot.submit_order hooks0 bot0 5 7 100 2 .GTC .Limit false .Buy 3
        none []
      = (bot0, [], .done (.error .InstrumentNotFound))
    ∧ LiveBot.submit_order hooks0 botFilled 0 1 100 2 .GTC .Limit false .Buy 3
        none []
      = (botFilled, [], .done (.error .OrderIdExist)) :=
  ⟨(C4_submit hooks0 bot0 0 7 100 2 .GTC .Limit .Buy 3 false none []).1
      inst0 (by decide) (by decide),
   (C4_submit hooks0 bot0 5 7 100 2 .GTC .Limit .Buy 3 false none []).2.1
      (by decide),
   (C4_submit hooks0 botFilled 0 1 100 2 .GTC .Limit .Buy 3 false none []).2.2
      { inst0 with orders := [(1, filledOrder)] } filledOrder
      (by decide) (by decide)⟩

/-- C5: `cancel` fails `InstrumentNotFound` on an out-of-range asset index,
`OrderNotFound` when the id is absent, and `InvalidOrderStatus` when the
order is not cancellable; in each failure the bot state is returned exactly
as it was (so `req` and `local_timestamp` are untouched) and no message is
published. -/
theorem C5_cancel_errors (hooks : Hooks) (bot : LiveBot) (asset_no : Nat)
    (order_id : Nat) (wait : Bool) (now : Int) (send_result : Option BotError)
    (trace : List Step) :
    (bot.instruments.get? asset_no = none →
      LiveBot.cancel hooks bot asset_no order_id wait now send_result trace
        = (bot, [], .done (.error .InstrumentNotFound)))
    ∧ (∀ inst, bot.instruments.get? asset_no = some inst →
        omFind inst.orders order_id = none →
        LiveBot.cancel hooks bot asset_no order_id wait now send_result trace
          = (bot, [], .done (.error .OrderNotFound)))
    ∧ (∀ inst o, bot.instruments.get? asset_no = some inst →
        omFind inst.orders order_id = some o →
        o.cancellable = false →
        LiveBot.cancel hooks bot asset_no order_id wait now send_result trace
          = (bot, [], .done (.error .InvalidOrderStatus))) := by
  refine ⟨fun h => ?_, fun inst h hfind => ?_, fun inst o h hfind hc => ?_⟩
  · have h' := h
    simp only [List.get?_eq_getElem?] at h'
    simp [LiveBot.cancel, h']
  · have h' := h
    simp only [List.get?_eq_getElem?] at h'
    simp [LiveBot.cancel, h', hfind]
  · have h' := h
    simp only [List.get?_eq_getElem?] at h'
    simp [LiveBot.cancel, h', hfind, hc]

/-- C5, witness: the three error cases at concrete inputs (the `Filled`
entry is not cancellable; nothing is published and the state, including
the entry's `req` and `local_timestamp`, is unchanged). -/
theorem C5_witness :
    LiveBot.cancel hooks0 botFilled 1 1 false 9 none []
      = (botFilled, [], .done (.error .InstrumentNotFound)) ∧
    LiveBot.cancel hooks0 botFilled 0 99 false 9 none []
      = (botFilled, [], .done (.error .OrderNotFound)) ∧
    LiveBot.cancel hooks0 botFilled 0 1 false 9 none []
      = (botFilled, [], .done (.error .InvalidOrderStatus)) :=
  ⟨(C5_cancel_errors hooks0 botFilled 1 1 false 9 none []).1 (by decide),
   (C5_cancel_errors hooks0 botFilled 0 99 false 9 none []).2.1
      { inst0 with orders := [(1, filledOrder)] } (by decide) (by decide),
   (C5_cancel_errors hooks0 botFilled 0 1 false 9 none []).2.2
      { inst0 with orders := [(1, filledOrder)] } filledOrder
      (by decide) (by decide) (by decide)⟩

/-- C8: the mirror entry is inserted before the publish; when the publish
fails, `submit_order` surfaces the transport error while the freshly
inserted `New` entry stays in the order map (no rollback) and nothing is
published. -/
theorem C8_no_rollback (hooks : Hooks) (bot : LiveBot)
    (asset_no order_id : Nat) (price qty : Rat) (tif : TimeInForce)
    (ot : OrdType) (side : Side) (now : Int) (wait : Bool) (e : BotError)
    (trace : List Step) (inst : Instrument)
    (hinst : bot.instruments.get? asset_no = some inst)
    (hfind : omFind inst.orders order_id = none) :
    LiveBot.submit_order hooks bot asset_no order_id price qty tif ot
        wait side now (some e) trace
      = (bot.setInstAt asset_no
          { inst with orders := omSet inst.orders order_id (mkNewOrder order_id price qty inst.tick_size side tif ot now) },
         [], .done (.error e))
    ∧ omFind (((LiveBot.submit_order hooks bot asset_no order_id price qty
          tif ot wait side now (some e) trace).1).ordersAt asset_no) order_id
        = some (mkNewOrder order_id price qty inst.tick_size side tif ot now) := by
  have h' := hinst
  simp only [List.get?_eq_getElem?] at h'
  have hcall : LiveBot.submit_order hooks bot asset_no order_id price qty
      tif ot wait side now (some e) trace
      = (bot.setInstAt asset_no
          { inst with orders := omSet inst.orders order_id (mkNewOrder order_id price qty inst.tick_size side tif ot now) },
         [], .done (.error e)) := by
    simp [LiveBot.submit_order, h', hfind]
  refine ⟨hcall, ?_⟩
  rw [hcall]
  rw [ordersAt_setInstAt_self bot asset_no inst _ hinst]
  exact omFind_omSet_self _ _ _

/-- C8, witness: a failing publish at a concrete input leaves the phantom
`New` entry in the mirror and surfaces the error. -/
theorem C8_witness :
    LiveBot.submit_order hooks0 bot0 0 7 100 2 .GTC .Limit false .Buy 3
        (some (.Custom "full")) []
      = (bot0.setInstAt 0
          { inst0 with orders := omSet inst0.orders 7 (mkNewOrder 7 100 2 inst0.tick_size .Buy .GTC .Limit 3) },
         [], .done (.error (.Custom "full")))
    ∧ omFind (((LiveBot.submit_order hooks0 bot0 0 7 100 2 .GTC .Limit
          false .Buy 3 (some (.Custom "full")) []).1).ordersAt 0) 7
        = some (mkNewOrder 7 100 2 inst0.tick_size .Buy .GTC .Limit 3) :=
  C8_no_rollback hooks0 bot0 0 7 100 2 .GTC .Limit .Buy 3 false
    (.Custom "full") [] inst0 (by decide) (by decide)

/-- C10: on an asset index with no instrument, the read accessors
`state_values`, `depth`, `orders`, `last_trades`, `feed_latency`,
`order_latency` and the targeted `clear_last_trades` panic (the modelled
`unwrap`-on-`None`, i.e. they evaluate to `none`), while `submit_order` and
`cancel` return `InstrumentNotFound` for the same index, and the targeted
`clear_inactive_orders` is a silent no-op. -/
theorem C10_out_of_range (hooks : Hooks) (bot : LiveBot)
    (n order_id : Nat) (price qty : Rat) (tif : TimeInForce) (ot : OrdType)
    (w : Bool) (side : Side) (now : Int) (sr : Option BotError)
    (tr : List Step)
    (h : bot.instruments.get? n = none) :
    bot.state_values n = none ∧
    bot.depth n = none ∧
    bot.orders n = none ∧
    bot.last_trades n = none ∧
    bot.feed_latency n = none ∧
    bot.order_latency n = none ∧
    bot.clear_last_trades (some n) = none ∧
    bot.clear_inactive_orders (some n) = bot ∧
    (LiveBot.submit_order hooks bot n order_id price qty tif ot w side now
        sr tr).2.2 = .done (.error .InstrumentNotFound) ∧
    (LiveBot.cancel hooks bot n order_id w now sr tr).2.2
      = .done (.error .InstrumentNotFound) := by
  have h' := h
  simp only [List.get?_eq_getElem?] at h'
  refine ⟨?_, ?_, ?_, ?_, ?_, ?_, ?_, ?_, ?_, ?_⟩
  · simp [LiveBot.state_values, h']
  · simp [LiveBot.depth, h']
  · simp [LiveBot.orders, h']
  · simp [LiveBot.last_trades, h']
  · simp [LiveBot.feed_latency, h']
  · simp [LiveBot.order_latency, h']
  · simp [LiveBot.clear_last_trades, h']
  · simp [LiveBot.clear_inactive_orders, h']
  · simp [LiveBot.submit_order, h']
  · simp [LiveBot.cancel, h']

/-- C10, witness: the out-of-range contrast at a concrete index. -/
theorem C10_witness :
    bot0.state_values 3 = none ∧
    bot0.depth 3 = none ∧
    bot0.orders 3 = none ∧
    bot0.last_trades 3 = none ∧
    bot0.feed_latency 3 = none ∧
    bot0.order_latency 3 = none ∧
    bot0.clear_last_trades (some 3) = none ∧
    bot0.clear_inactive_orders (some 3) = bot0 ∧
    (LiveBot.submit_order hooks0 bot0 3 7 100 2 .GTC .Limit false .Buy 0
        none []).2.2 = .done (.error .InstrumentNotFound) ∧
    (LiveBot.cancel hooks0 bot0 3 7 false 0 none []).2.2
      = .done (.error .InstrumentNotFound) :=
  C10_out_of_range hooks0 bot0 3 7 100 2 .GTC .Limit false .Buy 0 none []
    (by decide)

/-- Right cancellation for string concatenation. -/
theorem string_append_right_cancel (a b c : String) (h : a ++ c = b ++ c) :
    a = b := by
  have hd : (a ++ c).data = (b ++ c).data := by rw [h]
  simp only [String.data_append] at hd
  exact String.ext (List.append_cancel_right hd)

/-- Two instruments with the same symbol but different connector names have
different `connector/symbol` duplicate keys. -/
theorem dupKey_ne (i0 i1 : Instrument) (hsym : i0.symbol = i1.symbol)
    (hconn : i0.connector_name ≠ i1.connector_name) :
    dupKey i1 ≠ dupKey i0 := by
  intro h
  unfold dupKey at h
  rw [← hsym] at h
  have h1 := string_append_right_cancel _ _ _ h
  have h2 := string_append_right_cancel _ _ _ h1
  exact hconn h2.symm

/-- A hit in a singleton symbol map returns its only binding. -/
theorem smFind_singleton (s : String) (v : Nat) (sym : String) (j : Nat)
    (h : smFind [(s, v)] sym = some j) : j = v := by
  by_cases hs : s = sym
  · simp [smFind, hs] at h
    exact h.symm
  · simp [smFind, hs] at h

/-- The bot `build` produces for two instruments whose shared symbol is
resolved to the larger index 1. -/
def builtBot (id : Nat) (i0 i1 : Instrument) : LiveBot :=
  { id := id
    instruments := [i0, i1]
    symbol_to_inst_no := [(i0.symbol, 1)] }

/-- C9: asset-index resolution is keyed by symbol alone. Adding two
instruments with the same symbol under different connector names passes the
duplicate check, the symbol map binds the symbol to the larger index 1 (the
`collect` overwrites the earlier binding), every event leaves slot 0
untouched, and an event carrying the symbol — a `Position` here — is
applied to slot 1. -/
theorem C9_symbol_keyed (id : Nat) (i0 i1 : Instrument) (q : Rat)
    (hsym : i0.symbol = i1.symbol)
    (hconn : i0.connector_name ≠ i1.connector_name) :
    build id [i0, i1]
      = Except.ok (builtBot id i0 i1,
          [(1, Request.AddInstrument i0.symbol i0.tick_size),
           (1, Request.AddInstrument i1.symbol i1.tick_size)])
    ∧ smFind (builtBot id i0 i1).symbol_to_inst_no i0.symbol = some 1
    ∧ (∀ W hooks now ev wor,
        ((LiveBot.process_event W hooks now (builtBot id i0 i1)
            ev wor).1).instruments.get? 0 = some i0)
    ∧ (∀ W hooks now wor,
        (LiveBot.process_event W hooks now (builtBot id i0 i1)
            (.Position i0.symbol q) wor).1
          = (builtBot id i0 i1).setInstAt 1
              { i1 with state := { position := q } }) := by
  have hne := dupKey_ne i0 i1 hsym hconn
  have hdup : findDup [i0, i1] [] = none := by
    simp [findDup, hne]
  have hm : smOfInstruments [i0, i1] = [(i0.symbol, 1)] := by
    show smSet (smSet [] i0.symbol 0) i1.symbol 1 = [(i0.symbol, 1)]
    simp [smSet, hsym]
  refine ⟨?_, ?_, ?_, ?_⟩
  · simp only [build, hdup, hm, builtBot]
    simp [smFind, hsym]
  · simp [builtBot, smFind]
  · intro W hooks now ev wor
    cases ev with
    | Feed sym fe =>
      cases hs : smFind [(i0.symbol, 1)] sym with
      | none => simp [LiveBot.process_event, builtBot, hs]
      | some j =>
        have hj := smFind_singleton _ _ _ _ hs
        subst hj
        simp [LiveBot.process_event, builtBot, hs, LiveBot.setInstAt]
    | OrderEv sym u =>
      cases hs : smFind [(i0.symbol, 1)] sym with
      | none => simp [LiveBot.process_event, builtBot, hs]
      | some j =>
        have hj := smFind_singleton _ _ _ _ hs
        subst hj
        have hsB : smFind (builtBot id i0 i1).symbol_to_inst_no sym
            = some 1 := by simpa [builtBot] using hs
        rw [process_orderEv_fst W hooks now _ sym u wor 1 i1 hsB (by rfl)]
        simp [LiveBot.setInstAt, builtBot]
    | Position sym pq =>
      cases hs : smFind [(i0.symbol, 1)] sym with
      | none => simp [LiveBot.process_event, builtBot, hs]
      | some j =>
        have hj := smFind_singleton _ _ _ _ hs
        subst hj
        simp [LiveBot.process_event, builtBot, hs, LiveBot.setInstAt]
    | ErrorEv er =>
      cases he : hooks.error_handler with
      | none => simp [LiveBot.process_event, he, builtBot]
      | some handler =>
        cases hr : handler er with
        | error e => simp [LiveBot.process_event, he, hr, builtBot]
        | ok v => simp [LiveBot.process_event, he, hr, builtBot]
  · intro W hooks now wor
    have hs : smFind [(i0.symbol, 1)] i0.symbol = some 1 := by
      simp [smFind]
    simp [LiveBot.process_event, builtBot, hs, LiveBot.setInstAt]

/-- An instrument on connector "a". -/
def instA : Instrument := { inst0 with connector_name := "a" }

/-- An instrument with the same symbol on connector "b". -/
def instB : Instrument := { inst0 with connector_name := "b" }

/-- C9, witness: the concrete two-connector, one-symbol configuration. -/
theorem C9_witness :
    build 0 [instA, instB]
      = Except.ok (builtBot 0 instA instB,
          [(1, Request.AddInstrument instA.symbol instA.tick_size),
           (1, Request.AddInstrument instB.symbol instB.tick_size)])
    ∧ smFind (builtBot 0 instA instB).symbol_to_inst_no instA.symbol = some 1
    ∧ (∀ W hooks now ev wor,
        ((LiveBot.process_event W hooks now (builtBot 0 instA instB)
            ev wor).1).instruments.get? 0 = some instA)
    ∧ (∀ W hooks now wor,
        (LiveBot.process_event W hooks now (builtBot 0 instA instB)
            (.Position instA.symbol 5) wor).1
          = (builtBot 0 instA instB).setInstAt 1
              { instB with state := { position := 5 } }) :=
  C9_symbol_keyed 0 instA instB 5 (by decide) (by decide)
